import Mathlib

/-!
Verification of the email-validation and local-submission-tracking core of
the Crumble Bakery landing page (src/js/form-validation.js).

The JavaScript source is shallowly embedded: strings become lists of
characters, the browser key-value store becomes an explicit record that can
be flagged as throwing on reads or writes, time is an explicit integer
parameter standing for Date.now in epoch milliseconds, and the random
network-failure branch becomes an explicit boolean parameter.
-/

namespace Crumble

/-! ## Character classes -/

/-- ASCII letter, as tested by the character ranges of the source regexes. -/
def isAsciiAlpha (c : Char) : Bool :=
  (decide ('a' ≤ c) && decide (c ≤ 'z')) || (decide ('A' ≤ c) && decide (c ≤ 'Z'))

/-- ASCII digit. -/
def isAsciiDigit (c : Char) : Bool :=
  decide ('0' ≤ c) && decide (c ≤ '9')

/-- ASCII letter or digit, the class written a-zA-Z0-9 in the source regexes. -/
def isAsciiAlphaNum (c : Char) : Bool :=
  isAsciiAlpha c || isAsciiDigit c

/-- The domain-label class of the source, written a-zA-Z0-9 plus hyphen. -/
def alnumHyphen (c : Char) : Bool :=
  isAsciiAlphaNum c || decide (c = '-')

/-- The local-part character class of FORM_CONFIG.VALIDATION.emailRegex:
letters, digits, dot, and the specials listed in the class, namely
exclamation, hash, dollar, percent, ampersand, apostrophe (code 39), star,
plus, slash, equals, question mark, caret, underscore, backquote (code 96),
opening curly bracket (code 123), vertical bar, closing curly bracket
(code 125), tilde and hyphen. -/
def localChar (c : Char) : Bool :=
  isAsciiAlphaNum c || decide (c = '.') || decide (c = '!') || decide (c = '#') ||
  decide (c = '$') || decide (c = '%') || decide (c = '&') || decide (c = Char.ofNat 39) ||
  decide (c = '*') || decide (c = '+') || decide (c = '/') || decide (c = '=') ||
  decide (c = '?') || decide (c = '^') || decide (c = '_') || decide (c = Char.ofNat 96) ||
  decide (c = Char.ofNat 123) || decide (c = '|') || decide (c = Char.ofNat 125) ||
  decide (c = '~') || decide (c = '-')

/-! ## JavaScript string primitives -/

/-- Whitespace characters removed by the JavaScript String trim method:
space, tab, newline, carriage return, vertical tab (11), form feed (12),
no-break space (160) and the byte order mark (65279). -/
def jsWhitespace (c : Char) : Bool :=
  decide (c = ' ') || decide (c = '\t') || decide (c = '\n') || decide (c = '\r') ||
  decide (c = Char.ofNat 11) || decide (c = Char.ofNat 12) ||
  decide (c = Char.ofNat 160) || decide (c = Char.ofNat 65279)

/-- Remove the maximal suffix of characters satisfying p. -/
def trimRightP (p : Char → Bool) : List Char → List Char
  | [] => []
  | a :: t =>
    match trimRightP p t with
    | [] => if p a then [] else [a]
    | b :: u => a :: b :: u

/-- The JavaScript trim method: drop leading and trailing whitespace. -/
def trim (l : List Char) : List Char :=
  trimRightP jsWhitespace (l.dropWhile jsWhitespace)

/-- The JavaScript toLowerCase method restricted to the ASCII range, which is
all the validator ever lets through. -/
def jsLowerChar (c : Char) : Char :=
  if decide ('A' ≤ c) && decide (c ≤ 'Z') then Char.ofNat (c.toNat + 32) else c

/-- Lower-case a whole string. -/
def jsToLower (l : List Char) : List Char := l.map jsLowerChar

/-- The JavaScript test for containing two consecutive dots, written
local.includes with a two-dot argument in the source. -/
def hasDotDot : List Char → Bool
  | [] => false
  | [_] => false
  | a :: b :: t => (decide (a = '.') && decide (b = '.')) || hasDotDot (b :: t)

/-- Does the first character satisfy p (false for the empty string)?  Models
the JavaScript startsWith test for a one-character argument. -/
def headIs (p : Char → Bool) : List Char → Bool
  | [] => false
  | c :: _ => p c

/-- Does the last character satisfy p (false for the empty string)?  Models
the JavaScript endsWith test for a one-character argument. -/
def lastIs (p : Char → Bool) (l : List Char) : Bool := headIs p l.reverse

/-- The text before the unique at-sign.  In the source the split at the
at-sign is written email.split and destructured into local and domain;
it is only consulted after the guard that the string holds exactly one
at-sign, in which case the two parts are the text before and after it. -/
def emailLocal (e : List Char) : List Char := e.takeWhile (fun c => c != '@')

/-- The text after the unique at-sign (see emailLocal). -/
def emailDomain (e : List Char) : List Char := (e.dropWhile (fun c => c != '@')).tail

/-! ## The validator (class EmailValidator) -/

/-- The user-facing message constants of FORM_CONFIG.MESSAGES, abstracted to
an enumeration; each constructor stands for the corresponding fixed string. -/
inductive Msg where
  | required
  | invalid
  | tooShort
  | tooLong
  | submitting
  | success
  | networkError
  | serverError
  | alreadySubscribed
  | rateLimited
  | validMail
deriving DecidableEq

/-- The result object of EmailValidator.validate. -/
structure ValidationResult where
  isValid : Bool
  message : Msg
deriving DecidableEq

/-- The language of one domain label of FORM_CONFIG.VALIDATION.emailRegex:
the group is one alphanumeric character, optionally followed by up to 61
characters of the alnum-hyphen class and a final alphanumeric character.
Its language is exactly the nonempty strings of length at most 63 over the
alnum-hyphen class whose first and last characters are alphanumeric. -/
def regexLabel (l : List Char) : Bool :=
  decide (1 ≤ l.length) && decide (l.length ≤ 63) && l.all alnumHyphen &&
  headIs isAsciiAlphaNum l && lastIs isAsciiAlphaNum l

/-- The anchored test of FORM_CONFIG.VALIDATION.emailRegex.  Since no
character class of the regex contains the at-sign, a matching string holds
exactly one at-sign; the part before it is a nonempty run of localChar
characters, and the part after it is a dot-separated sequence of regexLabel
labels (at least one). -/
def emailRegexTest (e : List Char) : Bool :=
  decide (e.count '@' = 1) &&
  (decide (1 ≤ (emailLocal e).length) && (emailLocal e).all localChar &&
   (List.splitOn '.' (emailDomain e)).all regexLabel)

/-- EmailValidator.validateLocalPart (the argument is the local part). -/
def validateLocalPart (lp : List Char) : Bool :=
  if decide (lp.length = 0) || decide (64 < lp.length) then false
  else if headIs (fun c => decide (c = '.')) lp ||
          lastIs (fun c => decide (c = '.')) lp || hasDotDot lp then false
  else true

/-- The per-label checks of the loop in EmailValidator.validateDomainPart:
nonempty, at most 63 characters, matching the anchored nonempty
alnum-hyphen regex, and not starting or ending with a hyphen. -/
def domainLabelOk (l : List Char) : Bool :=
  if decide (l.length = 0) || decide (63 < l.length) then false
  else if !(decide (1 ≤ l.length) && l.all alnumHyphen) then false
  else if headIs (fun c => decide (c = '-')) l || lastIs (fun c => decide (c = '-')) l then false
  else true

/-- EmailValidator.validateDomainPart. -/
def validateDomainPart (domain : List Char) : Bool :=
  if decide (domain.length = 0) || decide (253 < domain.length) then false
  else
    let domainParts := List.splitOn '.' domain
    if decide (domainParts.length < 2) then false
    else if !domainParts.all domainLabelOk then false
    else
      let tld := domainParts.getLastD []
      if decide (tld.length < 2) || !(decide (1 ≤ tld.length) && tld.all isAsciiAlpha) then false
      else true

/-- EmailValidator.validateEmailStructure: exactly one at-sign, then the
local-part and domain-part checks on the split. -/
def validateEmailStructure (e : List Char) : Bool :=
  if !decide (e.count '@' = 1) then false
  else validateLocalPart (emailLocal e) && validateDomainPart (emailDomain e)

/-- EmailValidator.validate.  The first guard of the source tests the string
for being falsy (empty) or trimming to the empty string; every later check
runs on the trimmed string. -/
def validate (email : List Char) : ValidationResult :=
  if decide (email = []) || decide (trim email = []) then ⟨false, Msg.required⟩
  else
    let e := trim email
    if decide (e.length < 5) then ⟨false, Msg.tooShort⟩
    else if decide (254 < e.length) then ⟨false, Msg.tooLong⟩
    else if !emailRegexTest e then ⟨false, Msg.invalid⟩
    else if !validateEmailStructure e then ⟨false, Msg.invalid⟩
    else ⟨true, Msg.validMail⟩

/-! ## The local storage manager (class LocalStorageManager)

The browser store holds JSON-encoded strings under two fixed keys.  Each
slot is modelled as an optional stored value; a constructor malformed stands
for a stored string on which JSON.parse throws.  The flags getThrows and
setThrows model a storage whose getItem, respectively setItem and
removeItem, throw.  Time is passed explicitly as the value Date.now would
return, in epoch milliseconds. -/

/-- The value stored under the submissions key: a JSON array of strings,
or a string JSON.parse rejects. -/
inductive StoredSubs where
  | arr (emails : List (List Char))
  | malformed
deriving DecidableEq

/-- The value stored under the rate-limiting key: a JSON object with a
timestamp and an attempts field, or a string JSON.parse rejects. -/
inductive StoredRate where
  | obj (timestamp : Int) (attempts : Int)
  | malformed
deriving DecidableEq

/-- The browser localStorage, restricted to the two keys the source uses. -/
structure LocalStorage where
  subSlot : Option StoredSubs
  rateSlot : Option StoredRate
  getThrows : Bool
  setThrows : Bool
deriving DecidableEq

/-- The five-minute window constant of isRateLimited, in milliseconds. -/
def fiveMinutes : Int := 5 * 60 * 1000

/-- The JavaScript falsy-or on numbers, written with two vertical bars in
the source: the left operand unless it is zero. -/
def jsFalsyOr (a b : Int) : Int := if a = 0 then b else a

/-- LocalStorageManager.getSubmissions: read and parse the submissions key;
a read failure, an absent key, or a parse failure all yield the empty
array via the catch branch. -/
def getSubmissions (st : LocalStorage) : List (List Char) :=
  if st.getThrows then []
  else
    match st.subSlot with
    | none => []
    | some (StoredSubs.arr xs) => xs
    | some StoredSubs.malformed => []

/-- LocalStorageManager.wasEmailSubmitted: membership of the lower-cased
email in the stored array.  The source performs no write here, so the
store component of the result is the input store. -/
def wasEmailSubmitted (st : LocalStorage) (email : List Char) : Bool × LocalStorage :=
  ((getSubmissions st).contains (jsToLower email), st)

/-- LocalStorageManager.storeSubmission: read the current array (with its
internal catch), append the lower-cased email, and write back; a write
failure is swallowed, leaving the store unchanged. -/
def storeSubmission (st : LocalStorage) (email : List Char) : LocalStorage :=
  let submissions := getSubmissions st
  if st.setThrows then st
  else { st with subSlot := some (StoredSubs.arr (submissions ++ [jsToLower email])) }

/-- LocalStorageManager.isRateLimited at time now: absent data, a read
failure or a parse failure yield false; data older than five minutes is
removed (when removal does not itself throw) and yields false; otherwise
the stored attempts are compared against three. -/
def isRateLimited (st : LocalStorage) (now : Int) : Bool × LocalStorage :=
  if st.getThrows then (false, st)
  else
    match st.rateSlot with
    | none => (false, st)
    | some StoredRate.malformed => (false, st)
    | some (StoredRate.obj timestamp attempts) =>
      if fiveMinutes < now - timestamp then
        if st.setThrows then (false, st)
        else (false, { st with rateSlot := none })
      else (decide (3 ≤ attempts), st)

/-- LocalStorageManager.recordAttempt at time now: increment the stored
attempts (treating a falsy stored value as zero) and refresh the timestamp
to now, or initialize the record to one attempt at now; a read failure, a
parse failure, or a write failure leaves the store unchanged via the
catch branch. -/
def recordAttempt (st : LocalStorage) (now : Int) : LocalStorage :=
  if st.getThrows then st
  else
    match st.rateSlot with
    | none =>
      if st.setThrows then st
      else { st with rateSlot := some (StoredRate.obj now 1) }
    | some StoredRate.malformed => st
    | some (StoredRate.obj _ attempts) =>
      if st.setThrows then st
      else { st with rateSlot := some (StoredRate.obj now (jsFalsyOr attempts 0 + 1)) }

/-! ## The submission simulator (class EmailSubmissionHandler) -/

/-- The reasons EmailSubmissionHandler.submitEmail can reject with, plus the
internal storage kind, which the theorems below show is never produced. -/
inductive SubmitErr where
  | rateLimited
  | alreadySubscribed
  | networkError
  | storageUnavailable
deriving DecidableEq

/-- The settled value of the promise returned by submitEmail. -/
inductive SubmitOutcome where
  | success (message : Msg)
  | failure (reason : SubmitErr)
deriving DecidableEq

/-- EmailSubmissionHandler.submitEmail at time now, with the five-percent
random branch made an explicit boolean randomFail: check the rate limit,
record the attempt, check for a duplicate, simulate the network delay and
the random failure, then store the submission and resolve. -/
def submitEmail (st : LocalStorage) (now : Int) (randomFail : Bool)
    (email : List Char) : SubmitOutcome × LocalStorage :=
  let rl := isRateLimited st now
  if rl.fst then (SubmitOutcome.failure SubmitErr.rateLimited, rl.snd)
  else
    let st2 := recordAttempt rl.snd now
    let dup := wasEmailSubmitted st2 email
    if dup.fst then (SubmitOutcome.failure SubmitErr.alreadySubscribed, dup.snd)
    else if randomFail then (SubmitOutcome.failure SubmitErr.networkError, dup.snd)
    else (SubmitOutcome.success Msg.success, storeSubmission dup.snd email)

/-- A fresh, working store: both keys absent, reads and writes succeed. -/
def freshStore : LocalStorage := ⟨none, none, false, false⟩

/-! ## Operation sequences over the rate-limit state -/

/-- One store operation of the rate-limiting interface, tagged with the
time at which it runs. -/
inductive StoreOp where
  | checkLimit (now : Int)
  | attempt (now : Int)

/-- Apply one operation to the store, keeping only the store. -/
def applyOp (st : LocalStorage) : StoreOp → LocalStorage
  | StoreOp.checkLimit now => (isRateLimited st now).snd
  | StoreOp.attempt now => recordAttempt st now

/-- The attempts counter of a well-formed rate-limit record, if present. -/
def attemptsView (st : LocalStorage) : Option Int :=
  match st.rateSlot with
  | some (StoredRate.obj _ a) => some a
  | _ => none

/-- One step preserves the counter discipline: the record is cleared or
absent, or was just (re)initialized to one, or the counter did not
decrease. -/
def stepOK (st st' : LocalStorage) : Prop :=
  attemptsView st' = none ∨ attemptsView st' = some 1 ∨
  (∃ a a', attemptsView st = some a ∧ attemptsView st' = some a' ∧ a ≤ a')

/-- Every adjacent pair of states along a run of operations satisfies
stepOK. -/
def chainOK : LocalStorage → List StoreOp → Prop
  | _, [] => True
  | st, op :: ops => stepOK st (applyOp st op) ∧ chainOK (applyOp st op) ops

/-! ## The validity rules as the specification words them (section 4.1)

These definitions follow the wording of the specification, to be compared
with the validator embedded from the source above. -/

/-- Modelled from the spec: one domain label per section 4.1, namely length
1 to 63, over letters, digits and hyphen, not starting or ending with a
hyphen. -/
def specLabel (l : List Char) : Bool :=
  decide (1 ≤ l.length) && decide (l.length ≤ 63) && l.all alnumHyphen &&
  !headIs (fun c => decide (c = '-')) l && !lastIs (fun c => decide (c = '-')) l

/-- Modelled from the spec: the local-part rules of section 4.1, namely
length 1 to 64, not starting or ending with a dot, and no two consecutive
dots. -/
def specLocalRules (lp : List Char) : Bool :=
  decide (1 ≤ lp.length) && decide (lp.length ≤ 64) &&
  !headIs (fun c => decide (c = '.')) lp && !lastIs (fun c => decide (c = '.')) lp &&
  !hasDotDot lp

/-- Modelled from the spec: the domain rules of section 4.1 as the claim
lists them, namely at least two dot-separated labels, each a specLabel, and
an alphabetic final label of length at least 2. -/
def specDomainRules (dm : List Char) : Bool :=
  decide (2 ≤ (List.splitOn '.' dm).length) && (List.splitOn '.' dm).all specLabel &&
  decide (2 ≤ ((List.splitOn '.' dm).getLastD []).length) &&
  ((List.splitOn '.' dm).getLastD []).all isAsciiAlpha

/-- Modelled from the spec: the full structural rule set of section 4.1 as
the claim lists it, on an already trimmed string: exactly one at-sign,
the local-part rules, and the domain rules. -/
def specRules41 (e : List Char) : Bool :=
  decide (e.count '@' = 1) && specLocalRules (emailLocal e) && specDomainRules (emailDomain e)

/-- The amended rule set: section 4.1 plus the restriction, coming from the
regex of the source, that every local-part character belongs to the
localChar class. -/
def specRules41A (e : List Char) : Bool :=
  specRules41 e && (emailLocal e).all localChar

/-! ## Helper lemmas -/

theorem boolEqOfIff {a b : Bool} (h : a = true ↔ b = true) : a = b := by
  cases a <;> cases b <;> simp_all

theorem isRateLimited_snd_subSlot (st : LocalStorage) (now : Int) :
    (isRateLimited st now).snd.subSlot = st.subSlot := by
  unfold isRateLimited
  split <;> try rfl
  split <;> try rfl
  split <;> [skip; rfl] <;> split <;> rfl

theorem isRateLimited_snd_getThrows (st : LocalStorage) (now : Int) :
    (isRateLimited st now).snd.getThrows = st.getThrows := by
  unfold isRateLimited
  split <;> try rfl
  split <;> try rfl
  split <;> [skip; rfl] <;> split <;> rfl

theorem recordAttempt_subSlot (st : LocalStorage) (now : Int) :
    (recordAttempt st now).subSlot = st.subSlot := by
  unfold recordAttempt
  split <;> try rfl
  split <;> (try split) <;> rfl

theorem recordAttempt_getThrows (st : LocalStorage) (now : Int) :
    (recordAttempt st now).getThrows = st.getThrows := by
  unfold recordAttempt
  split <;> try rfl
  split <;> (try split) <;> rfl

theorem storeSubmission_rateSlot (st : LocalStorage) (e : List Char) :
    (storeSubmission st e).rateSlot = st.rateSlot := by
  unfold storeSubmission
  split <;> rfl

theorem getSubmissions_congr (st st' : LocalStorage)
    (hg : st.getThrows = st'.getThrows) (hs : st.subSlot = st'.subSlot) :
    getSubmissions st = getSubmissions st' := by
  unfold getSubmissions
  rw [hg, hs]

theorem isRateLimited_true_snd (st : LocalStorage) (now : Int)
    (h : (isRateLimited st now).fst = true) : (isRateLimited st now).snd = st := by
  rcases st with ⟨sub, rate, gt, set⟩
  rcases gt <;> rcases rate with _ | (⟨ts, a⟩ | _) <;>
    simp_all [isRateLimited] <;> split_ifs <;> simp_all

/-! ## Claim theorems for the store and the simulator -/

/-- C9: for every email and every storage state, wasEmailSubmitted leaves
the store unchanged, and calling it twice without an intervening write
returns the same result both times. -/
theorem C9_wasSubmitted_idempotent (st : LocalStorage) (e : List Char) :
    (wasEmailSubmitted st e).snd = st ∧
    (wasEmailSubmitted (wasEmailSubmitted st e).snd e).fst = (wasEmailSubmitted st e).fst :=
  ⟨rfl, rfl⟩

/-- C2 counterexample: on a store that is rate limited (three attempts,
fresh timestamp), submitEmail fails with RATE_LIMITED and returns the store
completely unchanged, although recordAttempt would have changed the
rate-limit record; so recordAttempt is not invoked on a rate-limited call,
refuting that the attempt counter is incremented on every submission
attempt regardless of the outcome of the check. -/
theorem C2_cex :
    (submitEmail ⟨none, some (StoredRate.obj 0 3), false, false⟩ 0 false []).fst
      = SubmitOutcome.failure SubmitErr.rateLimited
    ∧ (submitEmail ⟨none, some (StoredRate.obj 0 3), false, false⟩ 0 false []).snd
      = ⟨none, some (StoredRate.obj 0 3), false, false⟩
    ∧ (recordAttempt ⟨none, some (StoredRate.obj 0 3), false, false⟩ 0).rateSlot
      ≠ (⟨none, some (StoredRate.obj 0 3), false, false⟩ : LocalStorage).rateSlot := by
  decide

/-- C2 amended: the rate-limit check happens first; when it reports limited
the call fails with RATE_LIMITED and the store, including the attempt
counter, is untouched; when it does not, recordAttempt is invoked on the
post-check store regardless of whether the email turns out to be a
duplicate or the network branch fails. -/
theorem C2_amended (st : LocalStorage) (now : Int) (rnd : Bool) (e : List Char) :
    ((isRateLimited st now).fst = true →
      submitEmail st now rnd e = (SubmitOutcome.failure SubmitErr.rateLimited, st))
    ∧ ((isRateLimited st now).fst = false →
      (submitEmail st now rnd e).snd.rateSlot
        = (recordAttempt (isRateLimited st now).snd now).rateSlot) := by
  constructor
  · intro h
    have hs := isRateLimited_true_snd st now h
    simp [submitEmail, h, hs]
  · intro h
    simp only [submitEmail, h, Bool.false_eq_true, if_false]
    split
    · rfl
    · split
      · rfl
      · exact storeSubmission_rateSlot _ _

/-- C2 amended, witness at a fresh store. -/
theorem C2_amended_witness :
    (submitEmail freshStore 0 false []).snd.rateSlot
      = (recordAttempt (isRateLimited freshStore 0).snd 0).rateSlot :=
  (C2_amended freshStore 0 false []).2 (by decide)

/-- C4 counterexample: with the lower-cased address stored, a query that
carries leading and trailing spaces is reported as not submitted, although
its lower-cased and trimmed form is a member of the stored set; so
wasEmailSubmitted lower-cases but does not trim, refuting the claimed
normalization. -/
theorem C4_cex :
    (wasEmailSubmitted ⟨some (StoredSubs.arr [['a', '@', 'b', '.', 'c', 'o']]), none, false, false⟩
      [' ', 'A', '@', 'B', '.', 'C', 'O', ' ']).fst = false
    ∧ (getSubmissions ⟨some (StoredSubs.arr [['a', '@', 'b', '.', 'c', 'o']]), none, false, false⟩).contains
      (jsToLower (trim [' ', 'A', '@', 'B', '.', 'C', 'O', ' '])) = true := by
  decide

/-- C4 amended: wasEmailSubmitted decides membership on the lower-cased
(but not trimmed) email, and storeSubmission appends the lower-cased email
to the persisted set when the write succeeds. -/
theorem C4_amended (st : LocalStorage) (e : List Char) :
    (wasEmailSubmitted st e).fst = (getSubmissions st).contains (jsToLower e)
    ∧ (st.setThrows = false →
      (storeSubmission st e).subSlot
        = some (StoredSubs.arr (getSubmissions st ++ [jsToLower e]))) := by
  refine ⟨rfl, fun h => ?_⟩
  simp [storeSubmission, h]

/-- C4 amended, witness at a fresh store. -/
theorem C4_amended_witness :
    (storeSubmission freshStore []).subSlot
      = some (StoredSubs.arr (getSubmissions freshStore ++ [jsToLower []])) :=
  (C4_amended freshStore []).2 (by decide)

/-- C6: storage failures never surface.  Whatever the storage state,
submitEmail only ever fails with RATE_LIMITED, ALREADY_SUBSCRIBED or
NETWORK_ERROR, never with the internal storage kind; a read failure
degrades to the empty submission set, a negative duplicate check, a
negative rate-limit check and an ignored attempt record; malformed stored
JSON degrades the same way; and a write failure leaves the store
unchanged. -/
theorem C6_storage_safe (st : LocalStorage) (now : Int) (rnd : Bool) (e : List Char)
    (r : SubmitErr) :
    ((submitEmail st now rnd e).fst = SubmitOutcome.failure r →
        r = SubmitErr.rateLimited ∨ r = SubmitErr.alreadySubscribed ∨ r = SubmitErr.networkError)
    ∧ (st.getThrows = true →
        getSubmissions st = [] ∧ (wasEmailSubmitted st e).fst = false
        ∧ isRateLimited st now = (false, st) ∧ recordAttempt st now = st)
    ∧ (st.subSlot = some StoredSubs.malformed → getSubmissions st = [])
    ∧ (st.rateSlot = some StoredRate.malformed → isRateLimited st now = (false, st))
    ∧ (st.setThrows = true → storeSubmission st e = st) := by
  refine ⟨?_, ?_, ?_, ?_, ?_⟩
  · intro h
    simp only [submitEmail] at h
    split at h
    · simp at h
      simp [h.symm]
    · split at h
      · simp at h
        simp [h.symm]
      · split at h
        · simp at h
          simp [h.symm]
        · simp at h
  · intro h
    refine ⟨?_, ?_, ?_, ?_⟩ <;>
      simp [getSubmissions, wasEmailSubmitted, isRateLimited, recordAttempt, h]
  · intro h
    by_cases hg : st.getThrows = true <;> simp [getSubmissions, h, hg]
  · intro h
    by_cases hg : st.getThrows = true <;> simp [isRateLimited, h, hg]
  · intro h
    simp [storeSubmission, h]

/-- C6, witness at a store whose reads and writes both throw. -/
theorem C6_storage_safe_witness :
    getSubmissions ⟨none, none, true, true⟩ = [] :=
  ((C6_storage_safe ⟨none, none, true, true⟩ 0 false [] SubmitErr.rateLimited).2.1 rfl).1

/-- C7: from a fresh store, with the random-failure branch not taken,
submitEmail resolves successfully with the fixed success message, the
lower-cased email is recorded, and a subsequent wasEmailSubmitted for the
same email reports true. -/
theorem C7_fresh_success (e : List Char) (now : Int) :
    (submitEmail freshStore now false e).fst = SubmitOutcome.success Msg.success
    ∧ (submitEmail freshStore now false e).snd.subSlot
        = some (StoredSubs.arr [jsToLower e])
    ∧ (wasEmailSubmitted (submitEmail freshStore now false e).snd e).fst = true := by
  have h1 : submitEmail freshStore now false e
      = (SubmitOutcome.success Msg.success,
         ⟨some (StoredSubs.arr [jsToLower e]), some (StoredRate.obj now 1), false, false⟩) := by
    simp [submitEmail, freshStore, isRateLimited, recordAttempt, wasEmailSubmitted,
      getSubmissions, storeSubmission]
  refine ⟨by rw [h1], by rw [h1], ?_⟩
  rw [h1]
  simp [wasEmailSubmitted, getSubmissions]

/-- C8: when the caller is not rate limited and the store already holds the
normalized email, submitEmail fails with ALREADY_SUBSCRIBED, the submission
set is unchanged, the attempt was still recorded, and with a working store
holding a live window the counter is incremented. -/
theorem C8_duplicate (st : LocalStorage) (now : Int) (rnd : Bool) (e : List Char)
    (h1 : (isRateLimited st now).fst = false)
    (h2 : (wasEmailSubmitted st e).fst = true) :
    (submitEmail st now rnd e).fst = SubmitOutcome.failure SubmitErr.alreadySubscribed
    ∧ (submitEmail st now rnd e).snd.subSlot = st.subSlot
    ∧ (submitEmail st now rnd e).snd.rateSlot
        = (recordAttempt (isRateLimited st now).snd now).rateSlot
    ∧ (∀ ts a, st.getThrows = false → st.setThrows = false →
        st.rateSlot = some (StoredRate.obj ts a) → now - ts ≤ fiveMinutes →
        attemptsView (submitEmail st now rnd e).snd = some (jsFalsyOr a 0 + 1)) := by
  have hg : getSubmissions (recordAttempt (isRateLimited st now).snd now) = getSubmissions st := by
    apply getSubmissions_congr
    · rw [recordAttempt_getThrows, isRateLimited_snd_getThrows]
    · rw [recordAttempt_subSlot, isRateLimited_snd_subSlot]
  have hdup : (wasEmailSubmitted (recordAttempt (isRateLimited st now).snd now) e).fst = true := by
    show (getSubmissions (recordAttempt (isRateLimited st now).snd now)).contains (jsToLower e) = true
    rw [hg]
    exact h2
  have hred : submitEmail st now rnd e
      = (SubmitOutcome.failure SubmitErr.alreadySubscribed,
         recordAttempt (isRateLimited st now).snd now) := by
    simp only [submitEmail, h1, Bool.false_eq_true, if_false]
    rw [if_pos hdup]
    rfl
  refine ⟨by rw [hred], ?_, by rw [hred], ?_⟩
  · rw [hred]
    show (recordAttempt (isRateLimited st now).snd now).subSlot = st.subSlot
    rw [recordAttempt_subSlot, isRateLimited_snd_subSlot]
  · intro ts a hg0 hs0 hslot hle
    have hsnd : (isRateLimited st now).snd = st := by
      simp [isRateLimited, hg0, hslot, Int.not_lt.mpr hle]
    rw [hred, hsnd]
    simp [recordAttempt, hg0, hs0, hslot, attemptsView]

/-- C8, witness: a working store pre-seeded with a lower-cased address. -/
theorem C8_duplicate_witness :
    (submitEmail ⟨some (StoredSubs.arr [['d', '@', 'e', '.', 'f', 'g']]), none, false, false⟩
      0 false ['d', '@', 'e', '.', 'f', 'g']).fst
      = SubmitOutcome.failure SubmitErr.alreadySubscribed :=
  (C8_duplicate ⟨some (StoredSubs.arr [['d', '@', 'e', '.', 'f', 'g']]), none, false, false⟩
    0 false ['d', '@', 'e', '.', 'f', 'g'] (by decide) (by decide)).1

/-- C3 counterexample: three attempts recorded at times 0, 0 and 240000
milliseconds, all within five minutes of the first; at time 301000, past
five minutes after the first attempt, isRateLimited still reports true and
the stored record is not cleared, because each recordAttempt refreshed the
window timestamp. -/
theorem C3_cex :
    ((240000 : Int) - 0 ≤ fiveMinutes)
    ∧ (fiveMinutes < (301000 : Int) - 0)
    ∧ (isRateLimited (recordAttempt (recordAttempt (recordAttempt freshStore 0) 0) 240000)
        301000).fst = true
    ∧ (isRateLimited (recordAttempt (recordAttempt (recordAttempt freshStore 0) 0) 240000)
        301000).snd.rateSlot ≠ none := by
  decide

/-- C3 amended: after three recordAttempt calls on a working store with no
prior record, isRateLimited reports true as long as no more than five
minutes have passed since the LAST recorded attempt, and once more than
five minutes have passed since the last attempt it reports false and
clears the stored record. -/
theorem C3_amended (st0 : LocalStorage) (t1 t2 t3 q : Int)
    (hg : st0.getThrows = false) (hs : st0.setThrows = false) (h0 : st0.rateSlot = none) :
    (q - t3 ≤ fiveMinutes →
      isRateLimited (recordAttempt (recordAttempt (recordAttempt st0 t1) t2) t3) q
        = (true, recordAttempt (recordAttempt (recordAttempt st0 t1) t2) t3))
    ∧ (fiveMinutes < q - t3 →
      isRateLimited (recordAttempt (recordAttempt (recordAttempt st0 t1) t2) t3) q
        = (false, { recordAttempt (recordAttempt (recordAttempt st0 t1) t2) t3 with
            rateSlot := none })) := by
  have h3 : recordAttempt (recordAttempt (recordAttempt st0 t1) t2) t3
      = { st0 with rateSlot := some (StoredRate.obj t3 3) } := by
    simp [recordAttempt, hg, hs, h0, jsFalsyOr]
  rw [h3]
  constructor
  · intro h
    simp [isRateLimited, hg, Int.not_lt.mpr h]
  · intro h
    simp [isRateLimited, hg, hs, h]

/-- C3 amended, witness: all three attempts at time zero, query at zero. -/
theorem C3_amended_witness :
    isRateLimited (recordAttempt (recordAttempt (recordAttempt freshStore 0) 0) 0) 0
      = (true, recordAttempt (recordAttempt (recordAttempt freshStore 0) 0) 0) :=
  (C3_amended freshStore 0 0 0 0 rfl rfl rfl).1 (by decide)

/-- One operation preserves the counter discipline. -/
theorem applyOp_step (st : LocalStorage) (op : StoreOp) : stepOK st (applyOp st op) := by
  have hrefl : ∀ s : LocalStorage, stepOK s s := by
    intro s
    rcases hv : attemptsView s with _ | a
    · exact Or.inl hv
    · exact Or.inr (Or.inr ⟨a, a, hv, hv, le_refl a⟩)
  obtain ⟨sub, rate, gt, set⟩ := st
  cases op with
  | checkLimit now =>
    cases gt
    · rcases rate with _ | (⟨ts, a⟩ | _)
      · exact hrefl _
      · by_cases hexp : fiveMinutes < now - ts
        · cases set
          · simp only [applyOp, isRateLimited, hexp]
            exact Or.inl rfl
          · simp only [applyOp, isRateLimited, hexp]
            exact hrefl _
        · simp only [applyOp, isRateLimited, hexp]
          exact hrefl _
      · exact hrefl _
    · exact hrefl _
  | attempt now =>
    cases gt
    · rcases rate with _ | (⟨ts, a⟩ | _)
      · cases set
        · exact Or.inr (Or.inl rfl)
        · exact hrefl _
      · cases set
        · refine Or.inr (Or.inr ⟨a, jsFalsyOr a 0 + 1, rfl, rfl, ?_⟩)
          unfold jsFalsyOr
          split <;> omega
        · exact hrefl _
      · exact hrefl _
    · exact hrefl _

/-- C5: along every sequence of isRateLimited and recordAttempt calls, the
attempts counter never decreases while a record persists, and any
transition either clears the record or resets it to one. -/
theorem C5_counter_invariant (st : LocalStorage) (ops : List StoreOp) : chainOK st ops := by
  induction ops generalizing st with
  | nil => trivial
  | cons op ops ih => exact ⟨applyOp_step st op, ih _⟩

/-! ## Trim lemmas and C10 -/

theorem trimRightP_nil (p : Char → Bool) : trimRightP p [] = [] := rfl

theorem trimRightP_cons (p : Char → Bool) (a : Char) (t : List Char) :
    trimRightP p (a :: t)
      = match trimRightP p t with
        | [] => if p a then [] else [a]
        | b :: u => a :: b :: u := rfl

theorem trimRightP_idem (p : Char → Bool) (l : List Char) :
    trimRightP p (trimRightP p l) = trimRightP p l := by
  induction l with
  | nil => rfl
  | cons a t ih =>
    cases h : trimRightP p t with
    | nil =>
      by_cases hp : p a
      · simp [trimRightP_cons, trimRightP_nil, h, hp]
      · simp [trimRightP_cons, trimRightP_nil, h, hp]
    | cons b u =>
      have h2 : trimRightP p (b :: u) = b :: u := by
        rw [← h, ih]
      have h3 : trimRightP p (a :: t) = a :: b :: u := by
        rw [trimRightP_cons, h]
      rw [h3, trimRightP_cons, h2]

theorem dropWhile_trimRightP (p : Char → Bool) (l : List Char)
    (h : l.dropWhile p = l) : (trimRightP p l).dropWhile p = trimRightP p l := by
  cases l with
  | nil => rfl
  | cons a t =>
    rw [List.dropWhile_cons] at h
    by_cases hp : p a
    · rw [if_pos hp] at h
      have hlen := List.Sublist.length_le (List.dropWhile_sublist (l := t) p)
      rw [h] at hlen
      simp at hlen
    · rw [if_neg hp] at h
      cases h2 : trimRightP p t with
      | nil =>
        simp [trimRightP_cons, h2, hp, List.dropWhile_cons]
      | cons b u =>
        simp [trimRightP_cons, h2, hp, List.dropWhile_cons]

theorem trim_idem (l : List Char) : trim (trim l) = trim l := by
  unfold trim
  rw [dropWhile_trimRightP _ _ (List.dropWhile_idempotent _ _), trimRightP_idem]

/-- C10: validate is invariant under trimming, with the same validity and
the same message, because whitespace-only and empty input both yield the
required message and every later check runs on the trimmed string. -/
theorem C10_trim_invariant (s : List Char) : validate s = validate (trim s) := by
  unfold validate
  rw [trim_idem]
  by_cases hs : trim s = []
  · have hs2 : decide (trim s = []) = true := by simp [hs]
    simp [hs2]
  · have hs0 : s ≠ [] := by
      intro h
      exact hs (by rw [h]; rfl)
    simp [hs, hs0]

/-! ## C1: the validator against the section 4.1 rules -/

theorem alnumHyphen_char (c : Char) (h : alnumHyphen c = true) :
    isAsciiAlphaNum c = true ↔ ¬(c = '-') := by
  by_cases hc : c = '-'
  · subst hc
    decide
  · unfold alnumHyphen at h
    simp [hc] at h
    simp [h, hc]

theorem domainLabelOk_iff (l : List Char) : domainLabelOk l = true ↔
    (1 ≤ l.length ∧ l.length ≤ 63 ∧ (∀ c ∈ l, alnumHyphen c = true)
     ∧ headIs (fun c => decide (c = '-')) l = false
     ∧ lastIs (fun c => decide (c = '-')) l = false) := by
  unfold domainLabelOk
  split_ifs with h1 h2 h3 <;> simp_all [List.all_eq_true]
  · intro hlen1 hlen2 _ _
    rcases h1 with h1 | h1
    · subst h1
      simp at hlen1
    · omega
  · intro _ hh
    rcases h3 with h3 | h3
    · rw [h3] at hh
      cases hh
    · exact h3
  · have := List.length_pos.mpr h1.1
    omega

theorem regexLabel_iff (l : List Char) : regexLabel l = true ↔
    (1 ≤ l.length ∧ l.length ≤ 63 ∧ (∀ c ∈ l, alnumHyphen c = true)
     ∧ headIs isAsciiAlphaNum l = true ∧ lastIs isAsciiAlphaNum l = true) := by
  unfold regexLabel
  simp [List.all_eq_true, and_assoc]

theorem specLabel_iff (l : List Char) : specLabel l = true ↔
    (1 ≤ l.length ∧ l.length ≤ 63 ∧ (∀ c ∈ l, alnumHyphen c = true)
     ∧ headIs (fun c => decide (c = '-')) l = false
     ∧ lastIs (fun c => decide (c = '-')) l = false) := by
  unfold specLabel
  simp [List.all_eq_true, and_assoc]

theorem headIs_dash_equiv (l : List Char) (hne : l ≠ [])
    (hall : ∀ c ∈ l, alnumHyphen c = true) :
    (headIs isAsciiAlphaNum l = true ↔ headIs (fun c => decide (c = '-')) l = false) := by
  cases l with
  | nil => exact absurd rfl hne
  | cons a t =>
    have h := alnumHyphen_char a (hall a (List.mem_cons_self a t))
    simp [headIs, h]

theorem lastIs_dash_equiv (l : List Char) (hne : l ≠ [])
    (hall : ∀ c ∈ l, alnumHyphen c = true) :
    (lastIs isAsciiAlphaNum l = true ↔ lastIs (fun c => decide (c = '-')) l = false) := by
  unfold lastIs
  apply headIs_dash_equiv
  · simpa using hne
  · intro c hc
    exact hall c (List.mem_reverse.mp hc)

theorem regexLabel_eq_domainLabelOk (l : List Char) : regexLabel l = domainLabelOk l := by
  apply boolEqOfIff
  rw [regexLabel_iff, domainLabelOk_iff]
  constructor
  · rintro ⟨h1, h2, h3, h4, h5⟩
    have hne : l ≠ [] := by
      intro h
      subst h
      simp at h1
    exact ⟨h1, h2, h3, (headIs_dash_equiv l hne h3).mp h4, (lastIs_dash_equiv l hne h3).mp h5⟩
  · rintro ⟨h1, h2, h3, h4, h5⟩
    have hne : l ≠ [] := by
      intro h
      subst h
      simp at h1
    exact ⟨h1, h2, h3, (headIs_dash_equiv l hne h3).mpr h4, (lastIs_dash_equiv l hne h3).mpr h5⟩

theorem specLabel_eq_domainLabelOk (l : List Char) : specLabel l = domainLabelOk l := by
  apply boolEqOfIff
  rw [specLabel_iff, domainLabelOk_iff]

theorem validateLocalPart_iff (lp : List Char) : validateLocalPart lp = true ↔
    (1 ≤ lp.length ∧ lp.length ≤ 64
     ∧ headIs (fun c => decide (c = '.')) lp = false
     ∧ lastIs (fun c => decide (c = '.')) lp = false
     ∧ hasDotDot lp = false) := by
  unfold validateLocalPart
  split_ifs with h1 h2 <;> simp_all
  · intro hlen1 hlen2 _ _
    rcases h1 with h1 | h1
    · subst h1
      simp at hlen1
    · omega
  · intro _ hh hl
    rcases h2 with (h2 | h2) | h2
    · rw [h2] at hh
      cases hh
    · rw [h2] at hl
      cases hl
    · exact h2
  · have := List.length_pos.mpr h1.1
    omega

theorem specLocalRules_iff (lp : List Char) : specLocalRules lp = true ↔
    (1 ≤ lp.length ∧ lp.length ≤ 64
     ∧ headIs (fun c => decide (c = '.')) lp = false
     ∧ lastIs (fun c => decide (c = '.')) lp = false
     ∧ hasDotDot lp = false) := by
  unfold specLocalRules
  simp [and_assoc]

theorem validateDomainPart_iff (dm : List Char) : validateDomainPart dm = true ↔
    (1 ≤ dm.length ∧ dm.length ≤ 253
     ∧ 2 ≤ (List.splitOn '.' dm).length
     ∧ (∀ l ∈ List.splitOn '.' dm, domainLabelOk l = true)
     ∧ 2 ≤ ((List.splitOn '.' dm).getLastD []).length
     ∧ (∀ c ∈ (List.splitOn '.' dm).getLastD [], isAsciiAlpha c = true)) := by
  unfold validateDomainPart
  split_ifs with h1 h2 h3 h4 <;> simp_all [List.all_eq_true]
  · intro ha hb _ _ _
    rcases h1 with h1 | h1
    · subst h1
      simp at ha
    · omega
  · constructor
    · rintro ⟨g1, g2, g3, g4, g5⟩
      have := List.length_pos.mpr h1.1
      exact ⟨by omega, g1, g2, g3, g5⟩
    · rintro ⟨g0, g1, g2, g3, g5⟩
      refine ⟨g1, g2, g3, ?_, g5⟩
      intro hnil
      rw [hnil] at g3
      simp at g3

theorem specDomainRules_iff (dm : List Char) : specDomainRules dm = true ↔
    (2 ≤ (List.splitOn '.' dm).length
     ∧ (∀ l ∈ List.splitOn '.' dm, domainLabelOk l = true)
     ∧ 2 ≤ ((List.splitOn '.' dm).getLastD []).length
     ∧ (∀ c ∈ (List.splitOn '.' dm).getLastD [], isAsciiAlpha c = true)) := by
  unfold specDomainRules
  simp only [Bool.and_eq_true, decide_eq_true_eq, List.all_eq_true, and_assoc]
  constructor
  · rintro ⟨h1, h2, h3, h4⟩
    refine ⟨h1, ?_, h3, h4⟩
    intro l hl
    rw [← specLabel_eq_domainLabelOk]
    exact h2 l hl
  · rintro ⟨h1, h2, h3, h4⟩
    refine ⟨h1, ?_, h3, h4⟩
    intro l hl
    rw [specLabel_eq_domainLabelOk]
    exact h2 l hl

theorem dropWhile_mem_at (e : List Char) (h : '@' ∈ e) :
    ∃ t, e.dropWhile (fun c => c != '@') = '@' :: t := by
  induction e with
  | nil => cases h
  | cons a t ih =>
    by_cases ha : a = '@'
    · subst ha
      exact ⟨t, by simp [List.dropWhile_cons]⟩
    · rcases List.mem_cons.mp h with h1 | h1
      · exact absurd h1.symm ha
      · obtain ⟨u, hu⟩ := ih h1
        refine ⟨u, ?_⟩
        rw [List.dropWhile_cons, if_pos (by simp [ha]), hu]

theorem email_decomp (e : List Char) (h : e.count '@' = 1) :
    e = emailLocal e ++ '@' :: emailDomain e := by
  have hm : '@' ∈ e := List.count_pos_iff.mp (by omega)
  obtain ⟨t, ht⟩ := dropWhile_mem_at e hm
  unfold emailLocal emailDomain
  rw [ht]
  simp only [List.tail_cons]
  conv_lhs => rw [← List.takeWhile_append_dropWhile (fun c => c != '@') e]
  rw [ht]

theorem email_len (e : List Char) (h : e.count '@' = 1) :
    e.length = (emailLocal e).length + 1 + (emailDomain e).length := by
  conv_lhs => rw [email_decomp e h]
  simp [List.length_append]
  omega

theorem splitOn_ge2_pos (dm : List Char) (h : 2 ≤ (List.splitOn '.' dm).length) :
    1 ≤ dm.length := by
  cases dm with
  | nil =>
    have h0 : List.splitOn '.' ([] : List Char) = [[]] := rfl
    rw [h0] at h
    simp at h
  | cons a t => simp

/-- The combined regex and structure test of the source agrees with the
amended section 4.1 rule set on strings of the accepted lengths. -/
theorem core_equiv (e : List Char) (h254 : e.length ≤ 254) :
    ((emailRegexTest e && validateEmailStructure e) = true ↔ specRules41A e = true) := by
  unfold emailRegexTest specRules41A specRules41
  by_cases hc : e.count '@' = 1
  · have hstru : validateEmailStructure e
        = (validateLocalPart (emailLocal e) && validateDomainPart (emailDomain e)) := by
      unfold validateEmailStructure
      rw [if_neg (by simp [hc])]
    rw [hstru]
    simp only [hc, Bool.and_eq_true, decide_eq_true_eq, List.all_eq_true]
    rw [validateLocalPart_iff, specLocalRules_iff, validateDomainPart_iff, specDomainRules_iff]
    simp only [true_and]
    constructor
    · rintro ⟨⟨⟨hA1, hA2⟩, hA3⟩, hP, hD1, hD2, hD3, hD4, hD5, hD6⟩
      exact ⟨⟨hP, hD3, hD4, hD5, hD6⟩, hA2⟩
    · rintro ⟨⟨hP, hT1, hT2, hT3, hT4⟩, hS3⟩
      have hlab : ∀ l ∈ List.splitOn '.' (emailDomain e), regexLabel l = true := by
        intro l hl
        rw [regexLabel_eq_domainLabelOk]
        exact hT2 l hl
      have hL1 : 1 ≤ (emailLocal e).length := hP.1
      have hdm1 : 1 ≤ (emailDomain e).length := splitOn_ge2_pos _ hT1
      have hdm253 : (emailDomain e).length ≤ 253 := by
        have hlen := email_len e hc
        omega
      exact ⟨⟨⟨hL1, hS3⟩, hlab⟩, hP, hdm1, hdm253, hT1, hT2, hT3, hT4⟩
  · simp [hc]

/-- Normal form of validate: the two invalid-producing tests of the source
collapse to the amended section 4.1 rule set. -/
theorem validate_spec (s : List Char) :
    validate s
      = (if decide (trim s = []) then ⟨false, Msg.required⟩
         else if decide ((trim s).length < 5) then ⟨false, Msg.tooShort⟩
         else if decide (254 < (trim s).length) then ⟨false, Msg.tooLong⟩
         else if specRules41A (trim s) then ⟨true, Msg.validMail⟩
         else ⟨false, Msg.invalid⟩) := by
  unfold validate
  by_cases h0 : trim s = []
  · simp [h0]
  · have hs0 : s ≠ [] := fun h => h0 (by rw [h]; rfl)
    simp only [h0, hs0, decide_False, Bool.or_self, Bool.false_eq_true, if_false,
      decide_eq_true_eq]
    by_cases h5 : (trim s).length < 5
    · simp [h5]
    · by_cases h254 : 254 < (trim s).length
      · simp [h5, h254]
      · have hle : (trim s).length ≤ 254 := by omega
        have hcore := core_equiv (trim s) hle
        simp only [h5, h254, decide_False, Bool.false_eq_true, if_false]
        by_cases hq : specRules41A (trim s) = true
        · have hxy : emailRegexTest (trim s) = true ∧ validateEmailStructure (trim s) = true := by
            simpa using hcore.mpr hq
          simp [hxy.1, hxy.2, hq]
        · have hq2 : specRules41A (trim s) = false := by
            cases hqq : specRules41A (trim s)
            · rfl
            · exact absurd hqq hq
          cases hx : emailRegexTest (trim s) <;> cases hy : validateEmailStructure (trim s)
          · simp [hx, hy, hq2]
          · simp [hx, hy, hq2]
          · simp [hx, hy, hq2]
          · exact absurd (hcore.mp (by simp [hx, hy])) hq

/-- C1 counterexample: the string with a space in the local part satisfies
every rule of section 4.1 as the claim lists them (one at-sign, local part
of length 1 to 64 with no bad dots, two good labels, alphabetic final label
of length 2, trimmed length between 5 and 254), yet validate rejects it
with the invalid-format message, because the regex restricts the local part
to the localChar class, which excludes the space. -/
theorem C1_cex :
    validate ['a', ' ', 'b', '@', 'c', 'd', '.', 'e', 'f'] = ⟨false, Msg.invalid⟩
    ∧ trim ['a', ' ', 'b', '@', 'c', 'd', '.', 'e', 'f'] ≠ []
    ∧ 5 ≤ (trim ['a', ' ', 'b', '@', 'c', 'd', '.', 'e', 'f']).length
    ∧ (trim ['a', ' ', 'b', '@', 'c', 'd', '.', 'e', 'f']).length ≤ 254
    ∧ specRules41 (trim ['a', ' ', 'b', '@', 'c', 'd', '.', 'e', 'f']) = true := by
  decide

/-- C1 amended: validate returns the required message exactly on strings
trimming to empty, the too-short message exactly on trimmed length below 5,
the too-long message exactly on trimmed length above 254, the
invalid-format message exactly when the trimmed string of accepted length
breaks the amended section 4.1 rules (which add the local-part character
class of the regex), and the valid result exactly when the trimmed string
of accepted length satisfies them. -/
theorem C1_amended_thm (s : List Char) :
    (validate s = ⟨false, Msg.required⟩ ↔ trim s = [])
    ∧ (validate s = ⟨false, Msg.tooShort⟩ ↔ (trim s ≠ [] ∧ (trim s).length < 5))
    ∧ (validate s = ⟨false, Msg.tooLong⟩ ↔ 254 < (trim s).length)
    ∧ (validate s = ⟨false, Msg.invalid⟩
        ↔ (5 ≤ (trim s).length ∧ (trim s).length ≤ 254 ∧ specRules41A (trim s) = false))
    ∧ (validate s = ⟨true, Msg.validMail⟩
        ↔ (5 ≤ (trim s).length ∧ (trim s).length ≤ 254 ∧ specRules41A (trim s) = true)) := by
  rw [validate_spec]
  by_cases h0 : trim s = []
  · refine ⟨?_, ?_, ?_, ?_, ?_⟩ <;> simp [h0]
  · have hpos : 1 ≤ (trim s).length := List.length_pos.mpr h0
    by_cases h5 : (trim s).length < 5
    · refine ⟨?_, ?_, ?_, ?_, ?_⟩ <;> simp [h0, h5] <;> omega
    · by_cases h254 : 254 < (trim s).length
      · refine ⟨?_, ?_, ?_, ?_, ?_⟩ <;> simp [h0, h5, h254] <;> omega
      · by_cases hq : specRules41A (trim s) = true
        · refine ⟨?_, ?_, ?_, ?_, ?_⟩ <;> simp [h0, h5, h254, hq] <;> omega
        · have hq2 : specRules41A (trim s) = false := by
            cases hqq : specRules41A (trim s)
            · rfl
            · exact absurd hqq hq
          refine ⟨?_, ?_, ?_, ?_, ?_⟩ <;> simp [h0, h5, h254, hq2] <;> omega

end Crumble
